import Mathlib

/-!
Verification of the Tatsu API client core (`src/tatsu/http.py`): the route
builder, the rate-limited request executor, header merging, endpoint
argument validation, and the shared rate-limit gate.

The executor is modelled against a transport script: a list assigning to
each HTTP attempt the wall-clock time at which its response is received
and the response itself.  Wall-clock times are integers (seconds);
response bodies are byte lists.
-/

/-- A transport response: HTTP status and raw body bytes (an aiohttp
response as consumed by `HTTPClient.request`). -/
structure Response where
  status : Nat
  body : List Nat
  deriving DecidableEq, Repr

/-- Outcome of one call to `HTTPClient.request`.  `success` is the normal
return of the body bytes; `httpError` is the `aiohttp.ClientResponseError`
raised by `response.raise_for_status()` — that exception carries the
status (with reason and headers) but NOT the body, since
`raise_for_status()` releases the connection without reading it;
`exhausted` is the final
`raise RuntimeError("Unreachable code in HTTP handling.")` after the 5-try
loop ends; `noResponse` marks a run that went past the end of the
transport script and is outside the modelled scenario. -/
inductive ReqOutcome
  | success (body : List Nat)
  | httpError (status : Nat)
  | exhausted
  | noResponse
  deriving DecidableEq, Repr

/-- Trace of one call to `HTTPClient.request`: number of HTTP attempts
issued, the durations slept after 429 responses (in order), the tracked
rate-limit reset deadline at the end of the call, and the outcome. -/
structure RunResult where
  attempts : Nat
  sleeps : List Int
  reset : Option Int
  outcome : ReqOutcome
  deriving DecidableEq, Repr

/-- Reset-deadline maintenance from `HTTPClient.request` (http.py 122-123):
`if not self._ratelimit_reset_time or self._ratelimit_reset_time < now:`
`    self._ratelimit_reset_time = now + timedelta(seconds=61)`. -/
def deadlineAfter (reset : Option Int) (now : Int) : Int :=
  match reset with
  | none => now + 61
  | some d => if d < now then now + 61 else d

/-- The attempt loop of `HTTPClient.request` (http.py 108-144) over a
transport script.  Each iteration receives a response at time `now`,
performs reset-deadline maintenance, and then: on a 429 it sleeps for
`deadline - now` and retries; on any status of at least 400 it raises via
`response.raise_for_status()`; on any other status `raise_for_status()`
does nothing and the body is read and returned.  Exhausting the fuel (the
`for _tries in range(5)` loop ending) is the final `raise RuntimeError`. -/
def requestLoop : Nat → Option Int → List (Int × Response) → RunResult
  | 0, reset, _ => ⟨0, [], reset, .exhausted⟩
  | _ + 1, reset, [] => ⟨0, [], reset, .noResponse⟩
  | fuel + 1, reset, (now, resp) :: rest =>
    let d := deadlineAfter reset now
    if resp.status = 429 then
      let r := requestLoop fuel (some d) rest
      ⟨r.attempts + 1, (d - now) :: r.sleeps, r.reset, r.outcome⟩
    else if 400 ≤ resp.status then
      ⟨1, [], some d, .httpError resp.status⟩
    else
      ⟨1, [], some d, .success resp.body⟩

/-- One call to `HTTPClient.request` on a fresh client: five tries, no
tracked reset deadline yet (`self._ratelimit_reset_time = None` in the
constructor), gate open (the single-call case; the gate is modelled in the
concurrent semantics further below). -/
def request (script : List (Int × Response)) : RunResult :=
  requestLoop 5 none script

/-- Lookup in a Python dict modelled as an association list with the
first binding for a key authoritative. -/
def alookup {α : Type} : List (String × α) → String → Option α
  | [], _ => none
  | (k, v) :: rest, key => if k = key then some v else alookup rest key

/-- Assignment `d[k] = v` on a Python dict modelled as an association
list: replace the first binding of `k`, or append a new one. -/
def dinsert {α : Type} (k : String) (v : α) : List (String × α) → List (String × α)
  | [] => [(k, v)]
  | (k1, v1) :: rest => if k1 = k then (k, v) :: rest else (k1, v1) :: dinsert k v rest

/-- Header preparation in `HTTPClient.request` (http.py 98-101): start from
the caller-supplied headers, then set the user-agent and the auth token on
top:
`headers = kwargs.pop("headers", {})`
`headers["User-Agent"] = self.user_agent`
`headers["Authorization"] = self.token`. -/
def buildHeaders (callerHeaders : List (String × String)) (userAgent token : String) :
    List (String × String) :=
  dinsert "Authorization" token (dinsert "User-Agent" userAgent callerHeaders)

/-- A value passed as a keyword parameter to `Route.__init__`: the client
only ever passes strings and integers. -/
inductive PValue
  | str (s : String)
  | num (n : Int)
  deriving DecidableEq, Repr

/-- Whether a byte is left unescaped by `urllib.parse.quote` with the
default `safe="/"`: the always-safe characters `A-Z a-z 0-9 _ . - ~`
together with `/`. -/
def isUnreserved (b : Nat) : Bool :=
  (65 ≤ b && b ≤ 90) || (97 ≤ b && b ≤ 122) || (48 ≤ b && b ≤ 57) ||
    b = 45 || b = 46 || b = 95 || b = 126 || b = 47

/-- Uppercase hexadecimal digit, as used in percent-escapes. -/
def hexUpper (n : Nat) : Char :=
  if n < 10 then Nat.digitChar n else Char.ofNat (55 + n)

/-- Percent-encoding of a single byte per `urllib.parse.quote`: safe bytes
stand for themselves, every other byte becomes `%XX` with uppercase hex. -/
def quoteByte (b : Nat) : List Char :=
  if isUnreserved b then [Char.ofNat b] else ['%', hexUpper (b / 16), hexUpper (b % 16)]

/-- Model of `urllib.parse.quote(v)` (default `safe="/"`): encode the
string as UTF-8 and percent-escape every unsafe byte. -/
def pyQuote (s : String) : String :=
  String.mk (((String.toUTF8 s).toList.map (fun b => b.toNat)).foldr
    (fun b acc => quoteByte b ++ acc) [])

/-- Decimal digits of a natural number, accumulator style; the first
argument is fuel (`n` itself is always enough). -/
def natDecAux : Nat → Nat → List Char → List Char
  | 0, n, acc => Nat.digitChar (n % 10) :: acc
  | fuel + 1, n, acc =>
    if n < 10 then Nat.digitChar n :: acc
    else natDecAux fuel (n / 10) (Nat.digitChar (n % 10) :: acc)

/-- Decimal digits of a natural number. -/
def natDec (n : Nat) : List Char :=
  natDecAux n n []

/-- Model of Python `format(n, "")` for an `int`: optionally signed
decimal text. -/
def intDec (n : Int) : String :=
  if n < 0 then String.mk ('-' :: natDec n.natAbs) else String.mk (natDec n.toNat)

/-- How a parameter value reaches the formatted URL in `Route.__init__`
(http.py 48): string values pass through `quote` in the dict comprehension
and are then substituted verbatim by `str.format_map`; integer values are
substituted as their decimal text. -/
def pvRender : PValue → String
  | .str s => pyQuote s
  | .num n => intDec n

/-- Failure modes of `str.format_map` as used by `Route.__init__`:
`keyError` is the `KeyError` for a placeholder with no binding (the
spec's `ConfigurationError`), `valueError` is the `ValueError` for a
stray or unterminated brace, and `unsupported` marks format-string
features the model does not cover (conversions `!`, format specs `:`,
attribute and index access, auto-numbering). -/
inductive FormatErr
  | keyError (name : String)
  | valueError
  | unsupported
  deriving DecidableEq, Repr

/-- Map over the success value of a format step. -/
def emap (f : List Char → List Char) : Except FormatErr (List Char) → Except FormatErr (List Char)
  | .ok l => .ok (f l)
  | .error e => .error e

/-- Whether a character may appear in a simple `{name}` field of a Python
format string without triggering conversion, format-spec, attribute or
index syntax. -/
def fieldChar (c : Char) : Bool :=
  !(c = '{' || c = '}' || c = '!' || c = ':' || c = '.' || c = '[' || c = ']')

/-- Character scanner of Python `str.format_map`.  The first list, when
present, is the reversed accumulator of the field name currently being
read.  `{{` and `}}` are brace escapes; a lone `}` or an unterminated `{`
is a `ValueError`; a completed `{name}` is replaced by the looked-up
value, or raises `KeyError` when the mapping has no binding for it. -/
def fmGo (lookup : String → Option String) : Option (List Char) → List Char → Except FormatErr (List Char)
  | none, [] => .ok []
  | none, c :: rest =>
    if c = '{' then
      match rest with
      | [] => .error .valueError
      | c2 :: rest2 =>
        if c2 = '{' then emap (fun r => '{' :: r) (fmGo lookup none rest2)
        else fmGo lookup (some []) (c2 :: rest2)
    else if c = '}' then
      match rest with
      | [] => .error .valueError
      | c2 :: rest2 =>
        if c2 = '}' then emap (fun r => '}' :: r) (fmGo lookup none rest2)
        else .error .valueError
    else emap (fun r => c :: r) (fmGo lookup none rest)
  | some _, [] => .error .valueError
  | some acc, c :: rest =>
    if c = '}' then
      if acc = [] then .error .unsupported
      else
        match lookup (String.mk acc.reverse) with
        | some v => emap (fun r => v.data ++ r) (fmGo lookup none rest)
        | none => .error (.keyError (String.mk acc.reverse))
    else if fieldChar c then fmGo lookup (some (c :: acc)) rest
    else .error .unsupported

/-- Model of Python `url.format_map(mapping)`. -/
def pyFormatMap (s : String) (lookup : String → Option String) : Except FormatErr String :=
  match fmGo lookup none s.data with
  | .ok l => .ok (String.mk l)
  | .error e => .error e

/-- Characters of a URL up to the first `/` after the first `://`
separator: the `scheme://netloc` part. -/
def hostPart : List Char → List Char
  | [] => []
  | ':' :: '/' :: '/' :: rest => ':' :: '/' :: '/' :: rest.takeWhile (fun c => c ≠ '/')
  | c :: rest => c :: hostPart rest

/-- Characters of a path up to and including its last `/` (empty when
there is no `/`). -/
def splitLastSlash (l : List Char) : List Char :=
  (l.reverse.dropWhile (fun c => c ≠ '/')).reverse

/-- Whether a reference carries a scheme: a `:` appears before the first
`/`. -/
def hasSchemeChars (l : List Char) : Bool :=
  (l.takeWhile (fun c => c ≠ '/')).contains ':'

/-- Model of `urllib.parse.urljoin(base, path)` for the URL shapes this
client exercises: an absolute `scheme://netloc/dir/` base and a reference
with no query, fragment, or `.`/`..` segments.  An empty reference keeps
the base; a reference with a scheme stands alone; a reference starting
with `/` replaces the base path; anything else is resolved against the
base directory (everything up to the base's last `/`). -/
def pyUrljoin (base path : String) : String :=
  if path.data = [] then base
  else if hasSchemeChars path.data then path
  else if path.data.head? = some '/' then String.mk (hostPart base.data ++ path.data)
  else String.mk (splitLastSlash base.data ++ path.data)

/-- A built route: the HTTP method together with the raw path template
and the resolved URL, mirroring the attributes of `Route`. -/
structure Route where
  method : String
  path : String
  url : String
  deriving DecidableEq, Repr

/-- Fixed API base URL (`Route.BASE`). -/
def Route.BASE : String := "https://api.tatsu.gg/v1/"

/-- The placeholder lookup used by `Route.__init__` (http.py 48): the
keyword parameters with strings already percent-quoted, and integers
rendered as decimal text when formatted. -/
def routeLookup (params : List (String × PValue)) : String → Option String :=
  fun k => (alookup params k).map pvRender

/-- Model of `Route.__init__` (http.py 43-49): join the path template onto
the fixed base URL, then — only when the keyword-parameter dict is
non-empty — substitute the placeholders with `str.format_map`. -/
def Route.build (method path : String) (params : List (String × PValue)) :
    Except FormatErr Route :=
  let url := pyUrljoin Route.BASE path
  match params with
  | [] => .ok ⟨method, path, url⟩
  | _ :: _ =>
    match pyFormatMap url (routeLookup params) with
    | .ok u => .ok ⟨method, path, u⟩
    | .error e => .error e

/-- A segment of a path template: literal text or a `{name}` placeholder.
Used only to state the universally quantified route-builder claims; the
builder itself always works on the rendered string. -/
inductive Seg
  | lit (s : String)
  | ph (name : String)
  deriving DecidableEq, Repr

/-- Literal text of a template segment, with placeholders rendered as
`{name}`. -/
def renderSeg : Seg → List Char
  | .lit s => s.data
  | .ph n => '{' :: (n.data ++ ['}'])

/-- Characters of a rendered template. -/
def renderChars (tpl : List Seg) : List Char :=
  tpl.foldr (fun s acc => renderSeg s ++ acc) []

/-- A template rendered back to the string handed to `Route.__init__`. -/
def renderTemplate (tpl : List Seg) : String :=
  String.mk (renderChars tpl)

/-- Characters of a template after substitution: literals verbatim,
placeholders replaced by the looked-up rendered value. -/
def substChars (lookup : String → Option String) (tpl : List Seg) : List Char :=
  tpl.foldr
    (fun s acc =>
      (match s with
       | .lit t => t.data
       | .ph n => ((lookup n).getD "").data) ++ acc)
    []

/-- A template after substitution, as a string. -/
def substTemplate (lookup : String → Option String) (tpl : List Seg) : String :=
  String.mk (substChars lookup tpl)

/-- Whether a character is not a brace. -/
def notBrace (c : Char) : Bool :=
  !(c = '{' || c = '}')

/-- Whether a character list is free of braces. -/
def braceFree (l : List Char) : Bool :=
  l.all notBrace

/-- Well-formedness of a template segment: literal text has no braces,
and a placeholder name is non-empty simple field text. -/
def segWF : Seg → Bool
  | .lit s => braceFree s.data
  | .ph n => !(n.data = []) && n.data.all fieldChar

/-- Well-formedness of a whole template. -/
def templateWF (tpl : List Seg) : Bool :=
  tpl.all segWF

/-- Whether every placeholder of a template has a binding under the
lookup. -/
def coveredB (lookup : String → Option String) (tpl : List Seg) : Bool :=
  tpl.all (fun s => match s with | .lit _ => true | .ph n => (lookup n).isSome)

/-- First placeholder of a template with no binding under the lookup. -/
def firstUncovered (lookup : String → Option String) : List Seg → Option String
  | [] => none
  | .lit _ :: rest => firstUncovered lookup rest
  | .ph n :: rest => if (lookup n).isSome then firstUncovered lookup rest else some n

/-- Whether no `/`-separated segment of a path is `.` or `..` (such
segments would be normalised away by `urllib.parse.urljoin` and are not
part of the modelled URL shapes). -/
def noDotSegments (l : List Char) : Bool :=
  (l.splitOn '/').all (fun seg => !(seg = ['.'] || seg = ['.', '.']))

/-- Whether a string is a relative path reference of the shape the
urljoin model covers: non-empty, not starting with `/`, carrying no
scheme, and free of `.`/`..` segments. -/
def relPath (s : String) : Bool :=
  !(s.data = []) && !(s.data.head? = some '/') && !hasSchemeChars s.data && noDotSegments s.data

/-- Modelled from the spec: `src/tatsu/enums.py` (`ActionType`) is not
under src/.  The spec only requires an opaque action value (for example
`ADD`) that is serialized into the JSON body of the modify operations. -/
inductive ActionType
  | add
  | remove
  deriving DecidableEq, Repr

/-- The `Literal["all", "month", "week"]` period argument of the ranking
endpoints. -/
inductive Period
  | all
  | month
  | week
  deriving DecidableEq, Repr

/-- The string value a period argument contributes to the path. -/
def periodStr : Period → String
  | .all => "all"
  | .month => "month"
  | .week => "week"

/-- Errors an endpoint method can raise before any network call:
`validation` is the `ValueError` of the argument range checks (the spec's
`ValidationError`); `configuration` wraps a route-formatting failure (the
spec's `ConfigurationError`). -/
inductive ApiError
  | validation (msg : String)
  | configuration (e : FormatErr)
  deriving DecidableEq, Repr

/-- The request an endpoint method hands to `HTTPClient.request`: method,
resolved URL, optional JSON body `{"action": ..., "amount": ...}` and
optional `offset` query parameter. -/
structure PreparedRequest where
  method : String
  url : String
  jsonAction : Option ActionType
  jsonAmount : Option Int
  queryOffset : Option Int
  deriving DecidableEq, Repr

/-- `HTTPClient.get_guild_member_points` (http.py 146-148). -/
def get_guild_member_points (guild_id member_id : Int) : Except ApiError PreparedRequest :=
  match Route.build "GET" "guilds/{guild_id}/members/{member_id}/points"
      [("guild_id", .num guild_id), ("member_id", .num member_id)] with
  | .error e => .error (.configuration e)
  | .ok r => .ok ⟨r.method, r.url, none, none, none⟩

/-- `HTTPClient.modify_guild_member_points` (http.py 150-163): the amount
must lie in `[1, 100000]`, checked before the route is built or any
request is attempted. -/
def modify_guild_member_points (guild_id member_id : Int) (action : ActionType)
    (amount : Int) : Except ApiError PreparedRequest :=
  if amount < 1 ∨ amount > 100000 then
    .error (.validation "Points amount must be between 1 and 100,000.")
  else
    match Route.build "PATCH" "guilds/{guild_id}/members/{member_id}/points"
        [("guild_id", .num guild_id), ("member_id", .num member_id)] with
    | .error e => .error (.configuration e)
    | .ok r => .ok ⟨r.method, r.url, some action, some amount, none⟩

/-- `HTTPClient.modify_guild_member_score` (http.py 165-178). -/
def modify_guild_member_score (guild_id member_id : Int) (action : ActionType)
    (amount : Int) : Except ApiError PreparedRequest :=
  if amount < 1 ∨ amount > 100000 then
    .error (.validation "Score amount must be between 1 and 100,000.")
  else
    match Route.build "PATCH" "guilds/{guild_id}/members/{member_id}/score"
        [("guild_id", .num guild_id), ("member_id", .num member_id)] with
    | .error e => .error (.configuration e)
    | .ok r => .ok ⟨r.method, r.url, some action, some amount, none⟩

/-- `HTTPClient.get_guild_member_ranking` (http.py 180-193). -/
def get_guild_member_ranking (guild_id user_id : Int) (period : Period) :
    Except ApiError PreparedRequest :=
  match Route.build "GET" "guilds/{guild_id}/rankings/members/{user_id}/{time_range}"
      [("guild_id", .num guild_id), ("user_id", .num user_id),
       ("time_range", .str (periodStr period))] with
  | .error e => .error (.configuration e)
  | .ok r => .ok ⟨r.method, r.url, none, none, none⟩

/-- `HTTPClient.get_guild_rankings` (http.py 195-208): the pagination
offset must be non-negative, checked before the route is built or any
request is attempted. -/
def get_guild_rankings (guild_id : Int) (period : Period) (offset : Int) :
    Except ApiError PreparedRequest :=
  if offset < 0 then
    .error (.validation "Pagination offset must be greater than or equal to 0.")
  else
    match Route.build "GET" "guilds/{guild_id}/rankings/{time_range}"
        [("guild_id", .num guild_id), ("time_range", .str (periodStr period))] with
    | .error e => .error (.configuration e)
    | .ok r => .ok ⟨r.method, r.url, none, none, some offset⟩

/-- `HTTPClient.get_user_profile` (http.py 210-212). -/
def get_user_profile (user_id : Int) : Except ApiError PreparedRequest :=
  match Route.build "GET" "users/{user_id}/profile" [("user_id", .num user_id)] with
  | .error e => .error (.configuration e)
  | .ok r => .ok ⟨r.method, r.url, none, none, none⟩

/-- Where a single call to `HTTPClient.request` stands between the await
points of its coroutine.  `start` is just after the session is ensured
(before the gate check); `waiting` is suspended in
`await self._ratelimit_unlock.wait()`; `ready fuel` is about to enter
`async with self._session.request(...)` with `fuel` tries left; `inflight`
is suspended in that request await; `sleeping` is suspended in
`await asyncio.sleep(...)` after a 429; `finished` is done. -/
inductive TaskPhase
  | start
  | waiting
  | ready (fuel : Nat)
  | inflight (fuel : Nat)
  | sleeping (fuel : Nat)
  | finished (o : ReqOutcome)
  deriving DecidableEq, Repr

/-- A concurrent call: its phase and its remaining transport script. -/
structure TaskState where
  phase : TaskPhase
  script : List (Int × Response)
  deriving DecidableEq, Repr

/-- Shared client state plus all in-flight calls: the
`asyncio.Event` gate (`true` = set/open), the tracked rate-limit reset
deadline, and the tasks. -/
structure ClientConfig where
  gate : Bool
  reset : Option Int
  tasks : List TaskState
  deriving DecidableEq, Repr

/-- Observable events of the concurrent semantics.  `enter` is passing
the open gate check; `waitStart` is blocking on the closed gate;
`waitRelease` is resuming from `wait()` once the gate is set; `issue` is
the request going out on the wire inside the request await; `recv s` is
receiving a response with status `s` (for a 429 this also clears the
gate and updates the reset deadline, which happen synchronously before
the sleep); `wake` is the sleep ending, which sets the gate; `finish` is
the call ending. -/
inductive Label
  | enter
  | waitStart
  | waitRelease
  | issue
  | recv (status : Nat)
  | wake
  | finish
  deriving DecidableEq, Repr

/-- One scheduling step of a single call, faithful to the await structure
of `HTTPClient.request`: the gate is consulted once, before the first
attempt (http.py 105-106), and never rechecked inside the retry loop; a
429 clears the gate, sleeps, then sets it and continues (http.py
125-136).  Returns `none` when the task cannot run (it is blocked on the
closed gate, or finished). -/
def stepTask (gate : Bool) (reset : Option Int) (t : TaskState) :
    Option (Bool × Option Int × TaskState × Label) :=
  match t.phase with
  | .start =>
    if gate then some (gate, reset, ⟨.ready 5, t.script⟩, .enter)
    else some (gate, reset, ⟨.waiting, t.script⟩, .waitStart)
  | .waiting =>
    if gate then some (gate, reset, ⟨.ready 5, t.script⟩, .waitRelease)
    else none
  | .ready 0 => some (gate, reset, ⟨.finished .exhausted, t.script⟩, .finish)
  | .ready (fuel + 1) => some (gate, reset, ⟨.inflight (fuel + 1), t.script⟩, .issue)
  | .inflight fuel =>
    match t.script with
    | [] => some (gate, reset, ⟨.finished .noResponse, []⟩, .finish)
    | (now, resp) :: rest =>
      let d := deadlineAfter reset now
      if resp.status = 429 then
        some (false, some d, ⟨.sleeping (fuel - 1), rest⟩, .recv 429)
      else if 400 ≤ resp.status then
        some (gate, some d, ⟨.finished (.httpError resp.status), rest⟩,
          .recv resp.status)
      else
        some (gate, some d, ⟨.finished (.success resp.body), rest⟩, .recv resp.status)
  | .sleeping fuel => some (true, reset, ⟨.ready fuel, t.script⟩, .wake)
  | .finished _ => none

/-- Run task `i` for one step if it is enabled; otherwise leave the
configuration unchanged and record no event. -/
def stepClient (cfg : ClientConfig) (i : Nat) : ClientConfig × Option (Nat × Label) :=
  match cfg.tasks[i]? with
  | none => (cfg, none)
  | some t =>
    match stepTask cfg.gate cfg.reset t with
    | none => (cfg, none)
    | some (g, r, t1, l) => (⟨g, r, cfg.tasks.set i t1⟩, some (i, l))

/-- Run a schedule: at each entry the named task takes one step if it
can.  Returns the final configuration and the trace of events.  Every
interleaving of the calls' await points corresponds to some schedule. -/
def runSched : ClientConfig → List Nat → ClientConfig × List (Nat × Label)
  | cfg, [] => (cfg, [])
  | cfg, i :: rest =>
    let s := stepClient cfg i
    let r := runSched s.1 rest
    (r.1, s.2.toList ++ r.2)

/-- Scan a trace for a violation of the ordering guarantee: after some
task receives a 429 (closing the gate) and before the next `wake`
(reopening it), a different task issues a request on the wire. -/
def gateViolationGo : Option Nat → List (Nat × Label) → Bool
  | _, [] => false
  | closedBy, (i, l) :: rest =>
    match l with
    | .recv 429 => gateViolationGo (some i) rest
    | .wake => gateViolationGo none rest
    | .issue =>
      match closedBy with
      | some j => if i = j then gateViolationGo closedBy rest else true
      | none => gateViolationGo none rest
    | _ => gateViolationGo closedBy rest

/-- Whether a trace violates the gate ordering guarantee. -/
def gateViolation (tr : List (Nat × Label)) : Bool :=
  gateViolationGo none tr

/-- A fresh client with two concurrent calls: task 0's transport returns
a 429 at time 0 (then a 200), task 1's returns a 200.  The gate starts
open and no reset deadline is tracked, as in `HTTPClient.__init__`. -/
def twoCallConfig : ClientConfig :=
  ⟨true, none,
    [⟨.start, [(0, ⟨429, []⟩), (70, ⟨200, [1]⟩)]⟩,
     ⟨.start, [(2, ⟨200, [2]⟩)]⟩]⟩

/-- The interleaving in which task 0 passes the gate check and issues,
task 1 passes the gate check, task 0 receives its 429 (closing the
gate), and then task 1 issues its request while the gate is closed. -/
def raceSchedule : List Nat := [0, 0, 1, 0, 1]

/-! ## Helper lemmas -/

/-- Exhausting the attempt loop is only reachable when every consumed
response was a 429: `fuel` responses were available and the first `fuel`
of them all carried status 429. -/
theorem requestLoop_exhausted (fuel : Nat) :
    ∀ (reset : Option Int) (script : List (Int × Response)),
      (requestLoop fuel reset script).outcome = .exhausted →
      fuel ≤ script.length ∧ ∀ p ∈ script.take fuel, p.2.status = 429 := by
  induction fuel with
  | zero => intro reset script _; simp
  | succ f ih =>
    intro reset script h
    match script with
    | [] => simp [requestLoop] at h
    | (now, resp) :: rest =>
      by_cases h429 : resp.status = 429
      · simp only [requestLoop, h429, if_true] at h
        obtain ⟨hlen, hall⟩ := ih _ _ h
        refine ⟨by simpa using hlen, ?_⟩
        intro p hp
        rcases List.mem_cons.mp (by simpa using hp) with heq | hmem
        · subst heq; exact h429
        · exact hall p hmem
      · by_cases h4 : 400 ≤ resp.status <;>
          simp [requestLoop, h429, h4] at h

/-! ## Claim theorems: executor -/

/-- C1: for a single call whose transport returns [429, 429, 200], the
executor performs exactly 3 attempts, suspends exactly twice — each time
for the computed wait duration `deadline - now` under the tracked
reset-deadline maintenance — and returns the body bytes of the final 200
response. -/
theorem executor_retries_then_returns (t1 t2 t3 : Int) (b1 b2 b : List Nat) :
    request [(t1, ⟨429, b1⟩), (t2, ⟨429, b2⟩), (t3, ⟨200, b⟩)] =
      ⟨3,
       [deadlineAfter none t1 - t1,
        deadlineAfter (some (deadlineAfter none t1)) t2 - t2],
       some (deadlineAfter (some (deadlineAfter (some (deadlineAfter none t1)) t2)) t3),
       .success b⟩ :=
  rfl

/-- C2: the tracked reset deadline is replaced exactly when it is absent
or expired (`deadline < now`), becoming `now + 61`; a still-valid deadline
is kept unchanged.  Concretely, a deadline set by a 429 at time `T` stays
`T + 61` when another 429 arrives at `T + 10`, and is recomputed to
`(T + 70) + 61` when the next 429 arrives at `T + 70`. -/
theorem reset_deadline_policy (T d now : Int) (b1 b2 : List Nat) :
    deadlineAfter none now = now + 61
    ∧ deadlineAfter (some d) now = (if d < now then now + 61 else d)
    ∧ (request [(T, ⟨429, b1⟩), (T + 10, ⟨429, b2⟩)]).reset = some (T + 61)
    ∧ (request [(T, ⟨429, b1⟩), (T + 70, ⟨429, b2⟩)]).reset = some (T + 70 + 61) := by
  refine ⟨rfl, rfl, ?_, ?_⟩
  · have h1 : ¬ (T + 61 < T + 10) := by omega
    simp [request, requestLoop, deadlineAfter, h1]
  · have h1 : T + 61 < T + 70 := by omega
    simp [request, requestLoop, deadlineAfter, h1]

/-- C3, counterexample: a response whose status is neither 200 nor 429 but
below 400 (here 204) does not make the executor fail — `raise_for_status()`
only raises for statuses of at least 400, so the body is returned (the
outcome is `success`, not `httpError`). -/
theorem non_error_status_returns_body :
    request [(0, ⟨204, [7]⟩)] = ⟨1, [], some 61, ReqOutcome.success [7]⟩ :=
  rfl

/-- C3, amended: for every response whose status is at least 400 and not
429, the executor fails immediately with an `HTTPError` carrying the
response status (aiohttp's `ClientResponseError`, which holds the status,
reason and headers but not the body — `raise_for_status()` releases the
connection without reading it), after exactly one attempt and with no
retry, whatever the transport would have returned later. -/
theorem error_status_fails_fast (now : Int) (resp : Response)
    (rest : List (Int × Response)) (h4 : 400 ≤ resp.status) (h429 : resp.status ≠ 429) :
    request ((now, resp) :: rest) =
      ⟨1, [], some (now + 61), .httpError resp.status⟩ := by
  simp [request, requestLoop, deadlineAfter, h4, h429]

/-- Witness for `error_status_fails_fast` at status 403. -/
theorem error_status_fails_fast_witness :
    400 ≤ (403 : Nat)
    ∧ request [(5, ⟨403, [9]⟩)] = ⟨1, [], some 66, .httpError 403⟩ :=
  ⟨by decide, error_status_fails_fast 5 ⟨403, [9]⟩ [] (by decide) (by decide)⟩

/-- C8: when all 5 attempts receive a 429 the call ends in the internal
`RuntimeError` (the spec's `ExhaustedRetriesError`) after exactly 5
attempts; this outcome is a distinct reported condition, different from
`httpError` and from a silent successful return; and it is the only way to
exhaust the loop — any run that ends exhausted had at least five responses
of which the first five were all 429s. -/
theorem exhausted_after_five_429 (t1 t2 t3 t4 t5 : Int) (b1 b2 b3 b4 b5 : List Nat)
    (script : List (Int × Response))
    (h : (request script).outcome = .exhausted) :
    (request [(t1, ⟨429, b1⟩), (t2, ⟨429, b2⟩), (t3, ⟨429, b3⟩),
        (t4, ⟨429, b4⟩), (t5, ⟨429, b5⟩)]).outcome = .exhausted
    ∧ (request [(t1, ⟨429, b1⟩), (t2, ⟨429, b2⟩), (t3, ⟨429, b3⟩),
        (t4, ⟨429, b4⟩), (t5, ⟨429, b5⟩)]).attempts = 5
    ∧ 5 ≤ script.length
    ∧ (∀ p ∈ script.take 5, p.2.status = 429)
    ∧ (∀ s, ReqOutcome.exhausted ≠ ReqOutcome.httpError s)
    ∧ (∀ b, ReqOutcome.exhausted ≠ ReqOutcome.success b) := by
  obtain ⟨hlen, hall⟩ := requestLoop_exhausted 5 none script h
  refine ⟨rfl, rfl, hlen, hall, ?_, ?_⟩
  · intro s h1
    exact ReqOutcome.noConfusion h1
  · intro b h1
    exact ReqOutcome.noConfusion h1

/-- Witness for `exhausted_after_five_429` on a concrete all-429 script. -/
theorem exhausted_after_five_429_witness :
    (request [(0, ⟨429, []⟩), (1, ⟨429, []⟩), (2, ⟨429, []⟩),
        (3, ⟨429, []⟩), (4, ⟨429, []⟩)]).outcome = .exhausted
    ∧ (request [(0, ⟨429, []⟩), (1, ⟨429, []⟩), (2, ⟨429, []⟩),
        (3, ⟨429, []⟩), (4, ⟨429, []⟩)]).attempts = 5 :=
  ⟨(exhausted_after_five_429 0 1 2 3 4 [] [] [] [] []
      [(0, ⟨429, []⟩), (1, ⟨429, []⟩), (2, ⟨429, []⟩), (3, ⟨429, []⟩), (4, ⟨429, []⟩)]
      (by decide)).1,
   (exhausted_after_five_429 0 1 2 3 4 [] [] [] [] []
      [(0, ⟨429, []⟩), (1, ⟨429, []⟩), (2, ⟨429, []⟩), (3, ⟨429, []⟩), (4, ⟨429, []⟩)]
      (by decide)).2.1⟩

/-! ## Claim theorems: validation and headers -/

/-- C4: every amount outside [1, 100000] passed to the points or score
modify operations, and every negative offset passed to guild rankings,
raises a `ValueError` (the spec's `ValidationError`) before any request is
attempted — the methods return the validation error instead of a prepared
request. -/
theorem validation_before_request (guild_id member_id : Int) (action : ActionType)
    (period : Period) (amount offset : Int)
    (hamt : amount < 1 ∨ amount > 100000) (hoff : offset < 0) :
    modify_guild_member_points guild_id member_id action amount =
        .error (.validation "Points amount must be between 1 and 100,000.")
    ∧ modify_guild_member_score guild_id member_id action amount =
        .error (.validation "Score amount must be between 1 and 100,000.")
    ∧ get_guild_rankings guild_id period offset =
        .error (.validation "Pagination offset must be greater than or equal to 0.") := by
  refine ⟨?_, ?_, ?_⟩
  · simp [modify_guild_member_points, hamt]
  · simp [modify_guild_member_score, hamt]
  · simp [get_guild_rankings, hoff]

/-- Witness for `validation_before_request` at amount 0 and offset -1. -/
theorem validation_before_request_witness :
    ((0 : Int) < 1 ∨ (0 : Int) > 100000) ∧ (-1 : Int) < 0
    ∧ modify_guild_member_points 10 20 .add 0 =
        .error (.validation "Points amount must be between 1 and 100,000.")
    ∧ modify_guild_member_score 10 20 .add 0 =
        .error (.validation "Score amount must be between 1 and 100,000.")
    ∧ get_guild_rankings 10 .all (-1) =
        .error (.validation "Pagination offset must be greater than or equal to 0.") := by
  have h := validation_before_request 10 20 .add .all 0 (-1) (by decide) (by decide)
  exact ⟨by decide, by decide, h.1, h.2.1, h.2.2⟩

/-- Looking up the key just inserted finds the inserted value. -/
theorem dget_dinsert_self {α : Type} (k : String) (v : α) (m : List (String × α)) :
    alookup (dinsert k v m) k = some v := by
  induction m with
  | nil => simp [dinsert, alookup]
  | cons p rest ih =>
    by_cases hk : p.1 = k
    · simp [dinsert, hk, alookup]
    · simp [dinsert, hk, alookup, ih]

/-- Inserting one key leaves lookups of any other key unchanged. -/
theorem dget_dinsert_other {α : Type} (k j : String) (v : α) (m : List (String × α))
    (hne : k ≠ j) : alookup (dinsert k v m) j = alookup m j := by
  induction m with
  | nil => simp [dinsert, alookup, hne]
  | cons p rest ih =>
    by_cases hk : p.1 = k
    · simp [dinsert, hk, alookup, hne]
    · simp [dinsert, hk, alookup, ih]

/-- C7: the headers actually sent always carry the client identifier under
`User-Agent` and the auth token under `Authorization`, overriding any
caller-supplied values for those two keys, while every other
caller-supplied header keeps its caller-supplied value. -/
theorem headers_merge_required (callerHeaders : List (String × String))
    (userAgent token k : String)
    (h1 : k ≠ "User-Agent") (h2 : k ≠ "Authorization") :
    alookup (buildHeaders callerHeaders userAgent token) "User-Agent" = some userAgent
    ∧ alookup (buildHeaders callerHeaders userAgent token) "Authorization" = some token
    ∧ alookup (buildHeaders callerHeaders userAgent token) k = alookup callerHeaders k := by
  refine ⟨?_, ?_, ?_⟩
  · rw [buildHeaders, dget_dinsert_other _ _ _ _ (by decide), dget_dinsert_self]
  · rw [buildHeaders, dget_dinsert_self]
  · rw [buildHeaders, dget_dinsert_other _ _ _ _ (Ne.symm h2),
      dget_dinsert_other _ _ _ _ (Ne.symm h1)]

/-- Witness for `headers_merge_required`: a caller-supplied `User-Agent`
is overridden and an unrelated `Accept` header survives. -/
theorem headers_merge_required_witness :
    alookup (buildHeaders [("Accept", "application/json"), ("User-Agent", "custom")]
        "TatsuUA" "tok-1") "User-Agent" = some "TatsuUA"
    ∧ alookup (buildHeaders [("Accept", "application/json"), ("User-Agent", "custom")]
        "TatsuUA" "tok-1") "Authorization" = some "tok-1"
    ∧ alookup (buildHeaders [("Accept", "application/json"), ("User-Agent", "custom")]
        "TatsuUA" "tok-1") "Accept" =
        alookup [("Accept", "application/json"), ("User-Agent", "custom")] "Accept" := by
  have h := headers_merge_required [("Accept", "application/json"), ("User-Agent", "custom")]
    "TatsuUA" "tok-1" "Accept" (by decide) (by decide)
  exact ⟨h.1, h.2.1, h.2.2⟩

/-! ## Claim theorems: the rate-limit gate -/

/-- C9, counterexample: from a fresh client (gate open, no deadline, both
calls at their start), the interleaving `raceSchedule` lets task 1 pass
the gate check while the gate is open, lets task 0 receive a 429 that
closes the gate, and then task 1 issues its request on the wire while the
gate is still closed and before any reopening — the gate is consulted
only once, before the first attempt, and never rechecked at the request
await point. -/
theorem gate_check_race :
    twoCallConfig.gate = true
    ∧ twoCallConfig.reset = none
    ∧ twoCallConfig.tasks =
        [⟨.start, [(0, ⟨429, []⟩), (70, ⟨200, [1]⟩)]⟩, ⟨.start, [(2, ⟨200, [2]⟩)]⟩]
    ∧ (runSched twoCallConfig raceSchedule).2 =
        [(0, .enter), (0, .issue), (1, .enter), (0, .recv 429), (1, .issue)]
    ∧ gateViolation (runSched twoCallConfig raceSchedule).2 = true := by
  exact ⟨rfl, rfl, rfl, by decide, by decide⟩

/-- C9, amended: a call that is suspended waiting on the closed gate takes
no step at all — in particular it issues no request — until the gate is
set again, at which point every waiting call is released (each one's only
step moves it to the ready phase, and that step leaves the gate open for
the remaining waiters); and a call that reaches the gate check while the
gate is closed blocks rather than issuing.  A call that passed the gate
check before the 429 closed the gate may however still issue its request
while the gate is closed (see the counterexample). -/
theorem gate_blocks_waiting_calls (reset : Option Int) (s : List (Int × Response))
    (t : TaskState) (hw : t.phase = .waiting) :
    stepTask false reset t = none
    ∧ stepTask true reset t = some (true, reset, ⟨.ready 5, t.script⟩, .waitRelease)
    ∧ stepTask false reset ⟨.start, s⟩ = some (false, reset, ⟨.waiting, s⟩, .waitStart) := by
  obtain ⟨ph, sc⟩ := t
  cases hw
  exact ⟨rfl, rfl, rfl⟩

/-- Witness for `gate_blocks_waiting_calls` on a concrete waiting task. -/
theorem gate_blocks_waiting_calls_witness :
    (TaskState.mk .waiting [(3, ⟨200, []⟩)]).phase = .waiting
    ∧ stepTask false none ⟨.waiting, [(3, ⟨200, []⟩)]⟩ = none
    ∧ stepTask true none ⟨.waiting, [(3, ⟨200, []⟩)]⟩ =
        some (true, none, ⟨.ready 5, [(3, ⟨200, []⟩)]⟩, .waitRelease) := by
  have h := gate_blocks_waiting_calls none [] ⟨.waiting, [(3, ⟨200, []⟩)]⟩ rfl
  exact ⟨rfl, h.1, h.2.1⟩

/-! ## Route builder lemmas -/

/-- Two mapped format steps compose. -/
theorem emap_emap (f g : List Char → List Char) (x : Except FormatErr (List Char)) :
    emap f (emap g x) = emap (fun l => f (g l)) x := by
  cases x <;> rfl

/-- The identity map is inert. -/
theorem emap_id (x : Except FormatErr (List Char)) : emap (fun l => l) x = x := by
  cases x <;> rfl

/-- A brace-free character passes through the format scanner verbatim. -/
theorem fmGo_cons_lit (lookup : String → Option String) (c : Char) (rest : List Char)
    (h1 : ¬ c = '{') (h2 : ¬ c = '}') :
    fmGo lookup none (c :: rest) = emap (fun r => c :: r) (fmGo lookup none rest) := by
  rw [fmGo.eq_def]
  simp [h1, h2]

/-- A brace-free literal passes through the format scanner verbatim. -/
theorem fmGo_lit (lookup : String → Option String) :
    ∀ (l : List Char), braceFree l = true → ∀ (t : List Char),
      fmGo lookup none (l ++ t) = emap (fun r => l ++ r) (fmGo lookup none t) := by
  intro l
  induction l with
  | nil =>
    intro _ t
    simp only [List.nil_append]
    rw [emap_id]
  | cons c cs ih =>
    intro hl t
    obtain ⟨hc, hcs⟩ : notBrace c = true ∧ braceFree cs = true := by
      simpa [braceFree] using hl
    obtain ⟨h1, h2⟩ : ¬ c = '{' ∧ ¬ c = '}' := by
      simpa [notBrace] using hc
    rw [List.cons_append, fmGo_cons_lit lookup c (cs ++ t) h1 h2, ih hcs t, emap_emap]
    simp only [List.cons_append]

/-- What the scanner does on reaching the `}` that closes a field whose
accumulated name is `name`. -/
def closeField (lookup : String → Option String) (name : List Char) (t : List Char) :
    Except FormatErr (List Char) :=
  if name = [] then .error .unsupported
  else
    match lookup (String.mk name) with
    | some v => emap (fun r => v.data ++ r) (fmGo lookup none t)
    | none => .error (.keyError (String.mk name))

/-- Scanning a simple field accumulates its name and closes it at the
terminating `}`. -/
theorem fmGo_field (lookup : String → Option String) :
    ∀ (nm : List Char), nm.all fieldChar = true → ∀ (acc t : List Char),
      fmGo lookup (some acc) (nm ++ '}' :: t) = closeField lookup (acc.reverse ++ nm) t := by
  intro nm
  induction nm with
  | nil =>
    intro _ acc t
    simp only [List.nil_append, List.append_nil]
    rw [fmGo.eq_def, closeField]
    by_cases ha : acc = []
    · simp [ha]
    · have hr : ¬ acc.reverse = [] := by simpa using ha
      simp [ha, hr]
  | cons c cs ih =>
    intro hnm acc t
    obtain ⟨hc, hcs⟩ : fieldChar c = true ∧ cs.all fieldChar = true := by
      simpa using hnm
    have hne : ¬ c = '}' := by
      intro h
      rw [h] at hc
      simp [fieldChar] at hc
    rw [List.cons_append, fmGo.eq_def]
    simp only [hne, hc, if_false, if_true, ite_false, ite_true]
    rw [ih hcs (c :: acc) t]
    simp [List.append_assoc]

/-- An opening brace followed by a non-brace character enters field
mode. -/
theorem fmGo_open (lookup : String → Option String) (c2 : Char) (rest2 : List Char)
    (h : ¬ c2 = '{') :
    fmGo lookup none ('{' :: (c2 :: rest2)) = fmGo lookup (some []) (c2 :: rest2) := by
  rw [fmGo.eq_def]
  simp [h]

/-- Running the scanner over a rendered well-formed template followed by
any continuation: if some placeholder has no binding the scan stops with
the `KeyError` of the first such placeholder; otherwise every placeholder
is substituted and the continuation is scanned next. -/
theorem fmGo_render (lookup : String → Option String) :
    ∀ (tpl : List Seg), templateWF tpl = true → ∀ (rest : List Char),
      fmGo lookup none (renderChars tpl ++ rest) =
        (match firstUncovered lookup tpl with
         | some n => .error (.keyError n)
         | none => emap (fun r => substChars lookup tpl ++ r) (fmGo lookup none rest)) := by
  intro tpl
  induction tpl with
  | nil =>
    intro _ rest
    simp only [renderChars, List.foldr_nil, List.nil_append, firstUncovered, substChars]
    rw [emap_id]
  | cons sg tl ih =>
    intro hwf rest
    obtain ⟨hsg, htl⟩ : segWF sg = true ∧ templateWF tl = true := by
      simpa [templateWF] using hwf
    cases sg with
    | lit s =>
      have hshape : renderChars (Seg.lit s :: tl) ++ rest = s.data ++ (renderChars tl ++ rest) := by
        simp [renderChars, renderSeg, List.append_assoc]
      rw [hshape, fmGo_lit lookup s.data (by simpa [segWF] using hsg) _, ih htl rest]
      cases hfu : firstUncovered lookup tl with
      | some n => simp [firstUncovered, hfu, emap]
      | none =>
        simp only [firstUncovered, hfu, emap_emap]
        have hsub : substChars lookup (Seg.lit s :: tl) = s.data ++ substChars lookup tl := by
          simp [substChars]
        rw [hsub]
        cases fmGo lookup none rest <;> simp [emap]
    | ph n =>
      obtain ⟨hne, hfc⟩ : ¬ n.data = [] ∧ n.data.all fieldChar = true := by
        simpa [segWF] using hsg
      have hshape : renderChars (Seg.ph n :: tl) ++ rest =
          '{' :: (n.data ++ '}' :: (renderChars tl ++ rest)) := by
        simp [renderChars, renderSeg, List.append_assoc]
      rw [hshape]
      obtain ⟨c2, cs, hnd⟩ : ∃ c2 cs, n.data = c2 :: cs := by
        cases h : n.data with
        | nil => exact absurd h hne
        | cons a l => exact ⟨a, l, rfl⟩
      have hmk : String.mk n.data = n := rfl
      have hfc2 : fieldChar c2 = true ∧ cs.all fieldChar = true := by
        rw [hnd] at hfc
        simpa using hfc
      have hc2brace : ¬ c2 = '{' := by
        intro h
        have := hfc2.1
        rw [h] at this
        simp [fieldChar] at this
      rw [hnd, List.cons_append,
        fmGo_open lookup c2 (cs ++ '}' :: (renderChars tl ++ rest)) hc2brace,
        show (c2 :: (cs ++ '}' :: (renderChars tl ++ rest))) =
          ((c2 :: cs) ++ '}' :: (renderChars tl ++ rest)) from rfl,
        fmGo_field lookup (c2 :: cs) (by rw [hnd] at hfc; exact hfc) [] _,
        List.reverse_nil, List.nil_append, closeField, if_neg (by simp),
        show String.mk (c2 :: cs) = n from hnd ▸ hmk]
      cases hlk : lookup n with
      | none =>
        simp [firstUncovered, hlk]
      | some v =>
        rw [ih htl rest]
        cases hfu : firstUncovered lookup tl with
        | some m => simp [firstUncovered, hlk, hfu, emap]
        | none =>
          simp only [firstUncovered, hlk, hfu, Option.isSome_some, if_true, ite_true, emap_emap]
          have hsub : substChars lookup (Seg.ph n :: tl) = v.data ++ substChars lookup tl := by
            simp [substChars, hlk]
          rw [hsub]
          cases fmGo lookup none rest <;> simp [emap]

/-- Full coverage is the absence of an uncovered placeholder. -/
theorem coveredB_iff_none (lookup : String → Option String) :
    ∀ (tpl : List Seg), coveredB lookup tpl = true ↔ firstUncovered lookup tpl = none := by
  intro tpl
  induction tpl with
  | nil => simp [coveredB, firstUncovered]
  | cons sg tl ih =>
    cases sg with
    | lit s => simpa [coveredB, firstUncovered] using ih
    | ph n =>
      by_cases h : (lookup n).isSome = true
      · simpa [coveredB, firstUncovered, h] using ih
      · simp [coveredB, firstUncovered, h]

/-- The first uncovered placeholder really has no binding. -/
theorem firstUncovered_some (lookup : String → Option String) :
    ∀ (tpl : List Seg) (n : String), firstUncovered lookup tpl = some n → lookup n = none := by
  intro tpl
  induction tpl with
  | nil => intro n h; simp [firstUncovered] at h
  | cons sg tl ih =>
    intro n h
    cases sg with
    | lit s => exact ih n (by simpa [firstUncovered] using h)
    | ph m =>
      by_cases hm : (lookup m).isSome = true
      · exact ih n (by simpa [firstUncovered, hm] using h)
      · have : m = n := by simpa [firstUncovered, hm] using h
        subst this
        cases hl : lookup m with
        | none => rfl
        | some v => rw [hl] at hm; simp at hm

/-- With an empty parameter dict a covered template has no placeholders
at all, so substitution renders it verbatim. -/
theorem substChars_empty_params :
    ∀ (tpl : List Seg), coveredB (routeLookup []) tpl = true →
      substChars (routeLookup []) tpl = renderChars tpl := by
  intro tpl
  induction tpl with
  | nil => intro _; rfl
  | cons sg tl ih =>
    intro h
    cases sg with
    | lit s =>
      have htl : coveredB (routeLookup []) tl = true := by simpa [coveredB] using h
      simp [substChars, renderChars, renderSeg]
      exact ih htl
    | ph n =>
      have : (routeLookup [] n).isSome = true := by
        have := (by simpa [coveredB] using h :
          (routeLookup [] n).isSome = true ∧ coveredB (routeLookup []) tl = true)
        exact this.1
      simp [routeLookup, alookup] at this

/-- Appending strings concatenates their character lists. -/
theorem string_mk_append (a b : String) : String.mk (a.data ++ b.data) = a ++ b := rfl

/-- The base URL holds no braces. -/
theorem base_braceFree : braceFree Route.BASE.data = true := by decide

/-- The base URL ends in a slash, so joining keeps it whole. -/
theorem base_splitLastSlash : splitLastSlash Route.BASE.data = Route.BASE.data := by decide

/-- Joining a relative path reference onto the base URL appends it to the
base. -/
theorem pyUrljoin_base_rel (path : String) (h : relPath path = true) :
    pyUrljoin Route.BASE path = String.mk (Route.BASE.data ++ path.data) := by
  obtain ⟨⟨⟨h1, h2⟩, h3⟩, _⟩ :
      ((¬ path.data = [] ∧ ¬ path.data.head? = some '/')
        ∧ hasSchemeChars path.data = false) ∧ noDotSegments path.data = true := by
    simpa [relPath] using h
  rw [pyUrljoin, if_neg h1, if_neg (by simp [h3]), if_neg h2, base_splitLastSlash]

set_option maxRecDepth 4096 in
/-- No output of the byte encoder contains a brace. -/
theorem quoteByte_braceFree : ∀ b : Fin 256, braceFree (quoteByte b.val) = true := by
  decide

/-- Percent-quoting never produces a brace. -/
theorem pyQuote_braceFree (s : String) : braceFree (pyQuote s).data = true := by
  show braceFree (((String.toUTF8 s).toList.map (fun b => b.toNat)).foldr
    (fun b acc => quoteByte b ++ acc) []) = true
  have hgen : ∀ (l : List Nat), (∀ b ∈ l, b < 256) →
      braceFree (l.foldr (fun b acc => quoteByte b ++ acc) []) = true := by
    intro l
    induction l with
    | nil => intro _; rfl
    | cons b bs ih =>
      intro hlt
      simp only [List.foldr_cons, braceFree, List.all_append, Bool.and_eq_true]
      refine ⟨quoteByte_braceFree ⟨b, hlt b (by simp)⟩, ?_⟩
      exact ih (fun x hx => hlt x (by simp [hx]))
  refine hgen _ ?_
  intro b hb
  obtain ⟨x, _, hx⟩ := List.mem_map.mp hb
  rw [Eq.symm hx]
  exact x.toNat_lt

/-- Decimal digits carry no braces. -/
theorem digitChar_notBrace : ∀ d : Fin 10, notBrace (Nat.digitChar d.val) = true := by
  decide

/-- The decimal renderer preserves brace-freedom of its accumulator. -/
theorem natDecAux_braceFree :
    ∀ (fuel n : Nat) (acc : List Char), braceFree acc = true →
      braceFree (natDecAux fuel n acc) = true := by
  intro fuel
  induction fuel with
  | zero =>
    intro n acc h
    simp only [natDecAux, braceFree, List.all_cons, Bool.and_eq_true]
    exact ⟨digitChar_notBrace ⟨n % 10, Nat.mod_lt n (by omega)⟩, h⟩
  | succ f ih =>
    intro n acc h
    rw [natDecAux]
    by_cases hn : n < 10
    · simp only [hn, if_true, ite_true, braceFree, List.all_cons, Bool.and_eq_true]
      exact ⟨digitChar_notBrace ⟨n, hn⟩, h⟩
    · rw [if_neg hn]
      refine ih (n / 10) _ ?_
      simp only [braceFree, List.all_cons, Bool.and_eq_true]
      exact ⟨digitChar_notBrace ⟨n % 10, Nat.mod_lt n (by omega)⟩, h⟩

/-- Decimal text of an integer carries no braces. -/
theorem intDec_braceFree (n : Int) : braceFree (intDec n).data = true := by
  rw [intDec]
  by_cases hn : n < 0
  · simp only [hn, if_true, ite_true]
    show braceFree ('-' :: natDec n.natAbs) = true
    simp only [braceFree, List.all_cons, Bool.and_eq_true]
    exact ⟨by decide, natDecAux_braceFree _ _ [] rfl⟩
  · rw [if_neg hn]
    exact natDecAux_braceFree _ _ [] rfl

/-- Every rendered parameter value is brace-free. -/
theorem pvRender_braceFree (v : PValue) : braceFree (pvRender v).data = true := by
  cases v with
  | str s => exact pyQuote_braceFree s
  | num n => exact intDec_braceFree n

/-- Substituting a well-formed template yields brace-free characters. -/
theorem substChars_braceFree (params : List (String × PValue)) :
    ∀ (tpl : List Seg), templateWF tpl = true →
      braceFree (substChars (routeLookup params) tpl) = true := by
  intro tpl
  induction tpl with
  | nil => intro _; rfl
  | cons sg tl ih =>
    intro hwf
    obtain ⟨hsg, htl⟩ : segWF sg = true ∧ templateWF tl = true := by
      simpa [templateWF] using hwf
    cases sg with
    | lit s =>
      have : substChars (routeLookup params) (Seg.lit s :: tl) =
          s.data ++ substChars (routeLookup params) tl := by
        simp [substChars]
      rw [this]
      simp only [braceFree, List.all_append, Bool.and_eq_true]
      exact ⟨by simpa [segWF, braceFree] using hsg, ih htl⟩
    | ph n =>
      have : substChars (routeLookup params) (Seg.ph n :: tl) =
          ((routeLookup params n).getD "").data ++ substChars (routeLookup params) tl := by
        simp [substChars]
      rw [this]
      simp only [braceFree, List.all_append, Bool.and_eq_true]
      refine ⟨?_, ih htl⟩
      cases hl : alookup params n with
      | none => simp [routeLookup, hl]
      | some v =>
        simp only [routeLookup, hl, Option.map_some, Option.getD_some]
        exact pvRender_braceFree v

/-! ## Claim theorems: route builder -/

/-- C5: for every well-formed relative path template whose placeholders
are all supplied a string or number parameter, `Route.__init__` produces
the fixed base URL with the template appended (not replacing the base
path) and every placeholder substituted — strings percent-quoted,
integers as decimal text — and the resulting URL contains no brace at
all, hence no literal `{name}`. -/
theorem route_build_resolves_placeholders (m : String) (tpl : List Seg)
    (params : List (String × PValue))
    (hwf : templateWF tpl = true)
    (hcov : coveredB (routeLookup params) tpl = true)
    (hrel : relPath (renderTemplate tpl) = true) :
    Route.build m (renderTemplate tpl) params =
      .ok ⟨m, renderTemplate tpl, Route.BASE ++ substTemplate (routeLookup params) tpl⟩
    ∧ braceFree (Route.BASE ++ substTemplate (routeLookup params) tpl).data = true := by
  have hbf : braceFree (Route.BASE.data ++ substChars (routeLookup params) tpl) = true := by
    simp only [braceFree, List.all_append, Bool.and_eq_true]
    exact ⟨base_braceFree, substChars_braceFree params tpl hwf⟩
  refine ⟨?_, hbf⟩
  cases params with
  | nil =>
    have hsub := substChars_empty_params tpl hcov
    show Except.ok (⟨m, renderTemplate tpl, pyUrljoin Route.BASE (renderTemplate tpl)⟩ : Route) = _
    rw [pyUrljoin_base_rel _ hrel,
      Eq.symm (string_mk_append Route.BASE (substTemplate (routeLookup []) tpl))]
    show Except.ok (⟨m, renderTemplate tpl,
        String.mk (Route.BASE.data ++ renderChars tpl)⟩ : Route) =
      Except.ok (⟨m, renderTemplate tpl,
        String.mk (Route.BASE.data ++ substChars (routeLookup []) tpl)⟩ : Route)
    rw [hsub]
  | cons p ps =>
    have hfu : firstUncovered (routeLookup (p :: ps)) tpl = none :=
      (coveredB_iff_none _ tpl).mp hcov
    have hscan : fmGo (routeLookup (p :: ps)) none (renderChars tpl) =
        .ok (substChars (routeLookup (p :: ps)) tpl) := by
      have hr := fmGo_render (routeLookup (p :: ps)) tpl hwf []
      rw [List.append_nil] at hr
      rw [hr, hfu]
      show emap (fun r => substChars (routeLookup (p :: ps)) tpl ++ r) (Except.ok []) = _
      show Except.ok (substChars (routeLookup (p :: ps)) tpl ++ []) = _
      rw [List.append_nil]
    have hfmt : pyFormatMap (pyUrljoin Route.BASE (renderTemplate tpl))
        (routeLookup (p :: ps)) =
        .ok (Route.BASE ++ substTemplate (routeLookup (p :: ps)) tpl) := by
      unfold pyFormatMap
      rw [pyUrljoin_base_rel _ hrel]
      show (match fmGo (routeLookup (p :: ps)) none
          (Route.BASE.data ++ renderChars tpl) with
        | .ok l => Except.ok (String.mk l)
        | .error e => Except.error e) = _
      rw [fmGo_lit _ Route.BASE.data base_braceFree (renderChars tpl), hscan]
      show Except.ok (String.mk (Route.BASE.data ++ substChars (routeLookup (p :: ps)) tpl)) = _
      exact congrArg Except.ok
        (string_mk_append Route.BASE (substTemplate (routeLookup (p :: ps)) tpl))
    show (match pyFormatMap (pyUrljoin Route.BASE (renderTemplate tpl))
        (routeLookup (p :: ps)) with
      | .ok u => Except.ok (⟨m, renderTemplate tpl, u⟩ : Route)
      | .error e => Except.error e) = _
    rw [hfmt]

/-- Witness for `route_build_resolves_placeholders` on the member-points
route with numeric parameters. -/
theorem route_build_resolves_placeholders_witness :
    templateWF [Seg.lit "guilds/", Seg.ph "guild_id", Seg.lit "/members/",
        Seg.ph "member_id", Seg.lit "/points"] = true
    ∧ coveredB (routeLookup [("guild_id", PValue.num 10), ("member_id", PValue.num 20)])
        [Seg.lit "guilds/", Seg.ph "guild_id", Seg.lit "/members/",
          Seg.ph "member_id", Seg.lit "/points"] = true
    ∧ relPath (renderTemplate [Seg.lit "guilds/", Seg.ph "guild_id", Seg.lit "/members/",
        Seg.ph "member_id", Seg.lit "/points"]) = true
    ∧ Route.BASE ++ substTemplate
        (routeLookup [("guild_id", PValue.num 10), ("member_id", PValue.num 20)])
        [Seg.lit "guilds/", Seg.ph "guild_id", Seg.lit "/members/",
          Seg.ph "member_id", Seg.lit "/points"] =
        "https://api.tatsu.gg/v1/guilds/10/members/20/points"
    ∧ Route.build "GET"
        (renderTemplate [Seg.lit "guilds/", Seg.ph "guild_id", Seg.lit "/members/",
          Seg.ph "member_id", Seg.lit "/points"])
        [("guild_id", PValue.num 10), ("member_id", PValue.num 20)] =
      .ok ⟨"GET",
        renderTemplate [Seg.lit "guilds/", Seg.ph "guild_id", Seg.lit "/members/",
          Seg.ph "member_id", Seg.lit "/points"],
        Route.BASE ++ substTemplate
          (routeLookup [("guild_id", PValue.num 10), ("member_id", PValue.num 20)])
          [Seg.lit "guilds/", Seg.ph "guild_id", Seg.lit "/members/",
            Seg.ph "member_id", Seg.lit "/points"]⟩ := by
  refine ⟨by decide, by decide, by decide, by decide, ?_⟩
  exact (route_build_resolves_placeholders "GET"
    [Seg.lit "guilds/", Seg.ph "guild_id", Seg.lit "/members/",
      Seg.ph "member_id", Seg.lit "/points"]
    [("guild_id", PValue.num 10), ("member_id", PValue.num 20)]
    (by decide) (by decide) (by decide)).1

/-- C6, counterexample: a route built with an EMPTY parameter dict never
fails, even though the template still contains a placeholder with no
binding — `Route.__init__` only calls `format_map` when the keyword dict
is non-empty, so no `KeyError`/`ConfigurationError` is raised. -/
theorem empty_params_no_failure :
    Route.build "GET" "users/{user_id}/profile" [] =
      .ok ⟨"GET", "users/{user_id}/profile", "https://api.tatsu.gg/v1/users/{user_id}/profile"⟩
    ∧ alookup ([] : List (String × PValue)) "user_id" = none := by
  exact ⟨rfl, rfl⟩

/-- C6, amended: whenever the parameter dict is NON-empty and some
placeholder of a well-formed relative template has no binding in it,
`Route.__init__` fails with the `KeyError` (the spec's
`ConfigurationError`) of an unbound placeholder, before any network
call. -/
theorem route_build_missing_param (m : String) (tpl : List Seg)
    (params : List (String × PValue))
    (hwf : templateWF tpl = true)
    (hne : params ≠ [])
    (hmiss : coveredB (routeLookup params) tpl = false)
    (hrel : relPath (renderTemplate tpl) = true) :
    ∃ n, Route.build m (renderTemplate tpl) params = .error (.keyError n)
      ∧ alookup params n = none := by
  obtain ⟨n, hfu⟩ : ∃ n, firstUncovered (routeLookup params) tpl = some n := by
    cases hq : firstUncovered (routeLookup params) tpl with
    | none =>
      rw [(coveredB_iff_none _ tpl).mpr hq] at hmiss
      cases hmiss
    | some n => exact ⟨n, rfl⟩
  have hlk : routeLookup params n = none := firstUncovered_some _ tpl n hfu
  have halk : alookup params n = none := by
    cases h : alookup params n with
    | none => rfl
    | some v =>
      rw [routeLookup] at hlk
      rw [h] at hlk
      simp at hlk
  refine ⟨n, ?_, halk⟩
  cases params with
  | nil => exact absurd rfl hne
  | cons p ps =>
    have hscan : fmGo (routeLookup (p :: ps)) none (renderChars tpl) =
        .error (.keyError n) := by
      have hr := fmGo_render (routeLookup (p :: ps)) tpl hwf []
      rw [List.append_nil] at hr
      rw [hr, hfu]
    have hfmt : pyFormatMap (pyUrljoin Route.BASE (renderTemplate tpl))
        (routeLookup (p :: ps)) = .error (.keyError n) := by
      unfold pyFormatMap
      rw [pyUrljoin_base_rel _ hrel]
      show (match fmGo (routeLookup (p :: ps)) none
          (Route.BASE.data ++ renderChars tpl) with
        | .ok l => Except.ok (String.mk l)
        | .error e => Except.error e) = _
      rw [fmGo_lit _ Route.BASE.data base_braceFree (renderChars tpl), hscan]
      rfl
    show (match pyFormatMap (pyUrljoin Route.BASE (renderTemplate tpl))
        (routeLookup (p :: ps)) with
      | .ok u => Except.ok (⟨m, renderTemplate tpl, u⟩ : Route)
      | .error e => Except.error e) = _
    rw [hfmt]

/-- Witness for `route_build_missing_param`: the profile template with a
non-empty dict that lacks `user_id`. -/
theorem route_build_missing_param_witness :
    templateWF [Seg.lit "users/", Seg.ph "user_id", Seg.lit "/profile"] = true
    ∧ coveredB (routeLookup [("other", PValue.num 1)])
        [Seg.lit "users/", Seg.ph "user_id", Seg.lit "/profile"] = false
    ∧ Route.build "GET"
        (renderTemplate [Seg.lit "users/", Seg.ph "user_id", Seg.lit "/profile"])
        [("other", PValue.num 1)] = .error (.keyError "user_id")
    ∧ alookup [("other", PValue.num 1)] "user_id" = none := by
  obtain ⟨n, h1, h2⟩ := route_build_missing_param "GET"
    [Seg.lit "users/", Seg.ph "user_id", Seg.lit "/profile"]
    [("other", PValue.num 1)] (by decide) (by decide) (by decide) (by decide)
  exact ⟨by decide, by decide, rfl, rfl⟩

/-- C10: a route built with an empty parameter dict succeeds with no
substitution at all — the URL is exactly the base joined with the raw
template — and any `{name}` placeholder text remains verbatim in the
resulting URL, as on the concrete profile template. -/
theorem empty_params_url_unchanged (m path : String) :
    Route.build m path [] = .ok ⟨m, path, pyUrljoin Route.BASE path⟩
    ∧ Route.build "GET" "users/{user_id}/profile" [] =
      .ok ⟨"GET", "users/{user_id}/profile",
        "https://api.tatsu.gg/v1/users/" ++ "{user_id}" ++ "/profile"⟩ := by
  exact ⟨rfl, rfl⟩
